import Mathlib

/-!
Verification of the lock-free object pool in `include/lockfree/lockfree.hpp`
(`OptimizedObjectPool`).  The header ships three textual variants of the pool:
the primary `std::expected`-based variant (lines 1-763), a raw-pointer variant
(lines 764-1762) and a middle variant (lines 1763-2223).  We give a shallow
sequential embedding of the pool engine: slots are natural-number handles, the
global MPMC ring is a FIFO list bounded by `PoolSize`, the per-thread cache is
a list modelling the `data[0..size)` array prefix, and the `size_t` statistics
counters are naturals reduced modulo `2^64` (relaxed-atomic increments are
exact in a sequential, quiescent execution).  The payload `T` is abstracted:
`reset`/`destroy`/`construct` touch only the payload, so they are no-ops on
pool state; the thread-affinity comparison outcome is passed as a boolean
parameter, and allocator/constructor outcomes are explicit inputs.
-/

namespace LockfreePool

/-- `2^64`, the modulus of the `size_t` statistics counters. -/
def SIZE_T_MOD : Nat := 18446744073709551616

/-- `fetch_add(1)` on a `size_t` relaxed atomic (sequential view). -/
def ctrInc (n : Nat) : Nat := (n + 1) % SIZE_T_MOD

/-- `fetch_sub(1)` on a `size_t` relaxed atomic (sequential view): wraps at zero. -/
def ctrDec (n : Nat) : Nat := (n + (SIZE_T_MOD - 1)) % SIZE_T_MOD

/-- The `PoolError` enum of the expected-based variants (lines 99-102). -/
inductive PoolError where
  | Shutdown
  | AllocationFailed
deriving Repr, DecidableEq

/-- Outcome of one `m_allocator.allocate(1)` plus in-place default construction,
supplied as an input to the functions that allocate:
`allocThrow` = `allocate` throws `std::bad_alloc`; `allocNull` = `allocate`
returns a null block; `ok c` = allocation succeeds and the payload's default
constructor throws iff `c`. -/
inductive AllocEv where
  | allocThrow
  | allocNull
  | ok (ctorThrows : Bool)
deriving Repr, DecidableEq

/-- The `StatsBlock` counters (lines 435-439), sequential view.
`current_pool_size` is derived from the ring and not stored. -/
structure Stats where
  acquires : Nat := 0
  releases : Nat := 0
  creates : Nat := 0
  cross_thread_ops : Nat := 0
  same_thread_hits : Nat := 0
  in_use : Nat := 0
  cache_hits : Nat := 0
  batch_operations : Nat := 0
deriving Repr, DecidableEq

/-- The per-thread `ThreadCache` (lines 455-466): the `data` list models the
array prefix `data[0..size)`, so `size = data.length`; pushes append at the
end (`data[size++] = obj`) and pops take the last element (`data[--size]`). -/
structure ThreadCache where
  valid : Bool := true
  data : List Nat := []
deriving Repr, DecidableEq

/-- Sequential state of one `OptimizedObjectPool` instantiation together with
its allocator: `ring` is the global `AtomicQueue` (front = oldest element),
`nextSlot` counts successful `allocate(1)` calls (each returning a fresh slot
handle), and `deallocs` lists the slots handed back to the allocator via
`deallocate(obj, 1)` (with prior destruction where the code destroys). -/
structure PoolState where
  shutdown : Bool := false
  ring : List Nat := []
  cache : ThreadCache := {}
  stats : Stats := {}
  nextSlot : Nat := 0
  deallocs : List Nat := []
deriving Repr, DecidableEq

/-- `safe_return_to_global` (lines 175-180): refuse when the shutdown flag is
set, otherwise `m_queue.try_push(obj)`, which fails exactly when the ring
holds `PoolSize` elements. -/
def safe_return_to_global (P : Nat) (o : Nat) (st : PoolState) : Bool × PoolState :=
  if st.shutdown then (false, st)
  else if st.ring.length < P then (true, { st with ring := st.ring ++ [o] })
  else (false, st)

/-- `safe_destroy_and_deallocate` (lines 189-199): destroy the payload (a
payload-only effect) and return the block to the allocator. -/
def safe_destroy_and_deallocate (obj : Option Nat) (st : PoolState) : PoolState :=
  match obj with
  | none => st
  | some o => { st with deallocs := st.deallocs ++ [o] }

/-- One iteration of the loop body of `batch_return_to_global` (lines 218-222):
try to return the object to the ring, destroying it if that fails. -/
def returnOne (P : Nat) (st : PoolState) (o : Nat) : PoolState :=
  let pr := safe_return_to_global P o st
  if pr.1 then pr.2 else safe_destroy_and_deallocate (some o) pr.2

/-- `batch_return_to_global` (lines 208-223): destroy everything when shut
down, otherwise count one batch operation and return each object. -/
def batch_return_to_global (P : Nat) (objs : List Nat) (st : PoolState) : PoolState :=
  if st.shutdown then
    objs.foldl (fun s o => safe_destroy_and_deallocate (some o) s) st
  else
    let st1 := { st with stats := { st.stats with
      batch_operations := ctrInc st.stats.batch_operations } }
    objs.foldl (returnOne P) st1

/-- `create_new` of the primary variant (lines 508-543): count the creation
first, then allocate; `std::bad_alloc` is caught (the block pointer is still
null there, so nothing is deallocated), `in_use` is rolled back and
`AllocationFailed` returned.  The payload constructor is nothrow here, so the
rethrowing catch-all is not exercised. -/
def create_new (allocOk : Bool) (st : PoolState) : Except PoolError Nat × PoolState :=
  let st1 := { st with stats := { st.stats with creates := ctrInc st.stats.creates } }
  if allocOk then
    (Except.ok st1.nextSlot, { st1 with nextSlot := st1.nextSlot + 1 })
  else
    (Except.error PoolError.AllocationFailed,
      { st1 with stats := { st1.stats with in_use := ctrDec st1.stats.in_use } })

/-- `acquire` of the primary variant (lines 234-267): shutdown pre-check, then
count the acquire, then thread cache (pop of `data[--size]` only when the
cache is non-empty and valid), then the global ring, then `create_new`. -/
def acquire (allocOk : Bool) (st : PoolState) : Except PoolError Nat × PoolState :=
  if st.shutdown then (Except.error PoolError.Shutdown, st)
  else
    let st1 := { st with stats := { st.stats with
      acquires := ctrInc st.stats.acquires,
      in_use := ctrInc st.stats.in_use } }
    match st1.cache.data, st1.cache.valid with
    | d :: ds, true =>
      (Except.ok (List.getLast (d :: ds) (List.cons_ne_nil d ds)),
        { st1 with
          cache := { st1.cache with data := (d :: ds).dropLast },
          stats := { st1.stats with
            same_thread_hits := ctrInc st1.stats.same_thread_hits,
            cache_hits := ctrInc st1.stats.cache_hits } })
    | _, _ =>
      match st1.ring with
      | o :: rest =>
        (Except.ok o,
          { st1 with
            ring := rest,
            stats := { st1.stats with
              cross_thread_ops := ctrInc st1.stats.cross_thread_ops } })
      | [] => create_new allocOk st1

/-- `release` of the primary variant (lines 276-311).  `sameThread` is the
outcome of the `obj->threadId == ThreadPool::getThreadId()` comparison (or
`true` when `T` has no affinity tag); `cleanup_object_optimized` touches only
the payload.  Same-thread releases into a valid, non-full cache of a live pool
go to the cache; everything else goes through `safe_return_to_global` and, on
failure, is destroyed; a cross-thread release is counted afterwards. -/
def release (P L : Nat) (sameThread : Bool) (obj : Option Nat) (st : PoolState) : PoolState :=
  match obj with
  | none => st
  | some o =>
    let st1 := { st with stats := { st.stats with
      releases := ctrInc st.stats.releases,
      in_use := ctrDec st.stats.in_use } }
    if sameThread = true ∧ st1.shutdown = false ∧ st1.cache.valid = true ∧
        st1.cache.data.length < L then
      { st1 with cache := { st1.cache with data := st1.cache.data ++ [o] } }
    else
      let pr := safe_return_to_global P o st1
      let st2 := if pr.1 then pr.2 else safe_destroy_and_deallocate (some o) pr.2
      if sameThread then st2
      else { st2 with stats := { st2.stats with
        cross_thread_ops := ctrInc st2.stats.cross_thread_ops } }

/-- `allocate_and_construct` of the primary variant (lines 552-566): any
failure is swallowed and null returned, but the catch block does not
deallocate, so a block whose constructor throws is allocated and never
returned to the allocator. -/
def allocate_and_construct (ev : AllocEv) (st : PoolState) : Option Nat × PoolState :=
  match ev with
  | AllocEv.allocThrow => (none, st)
  | AllocEv.allocNull => (none, st)
  | AllocEv.ok ctorThrows =>
    let o := st.nextSlot
    let st1 := { st with nextSlot := o + 1 }
    if ctorThrows then (none, st1) else (some o, st1)

/-- `allocate_and_construct` of the raw-pointer variant (lines 1515-1540):
identical except that the catch block deallocates the block when one was
allocated before the constructor threw. -/
def allocate_and_constructRaw (ev : AllocEv) (st : PoolState) : Option Nat × PoolState :=
  match ev with
  | AllocEv.allocThrow => (none, st)
  | AllocEv.allocNull => (none, st)
  | AllocEv.ok ctorThrows =>
    let o := st.nextSlot
    let st1 := { st with nextSlot := o + 1 }
    if ctorThrows then (none, { st1 with deallocs := st1.deallocs ++ [o] })
    else (some o, st1)

/-- The allocation phase of one `prewarm` batch (lines 333-340): call
`allocate_and_construct` up to `n` times, consuming alloc events from the
oracle, stopping at the first failure.  Returns the allocated batch, the new
state and the remaining oracle; an exhausted oracle counts as failure. -/
def allocBatch (n : Nat) (st : PoolState) (oracle : List AllocEv) :
    List Nat × PoolState × List AllocEv :=
  match n with
  | 0 => ([], st, oracle)
  | n + 1 =>
    match oracle with
    | [] => ([], st, [])
    | ev :: rest =>
      match allocate_and_construct ev st with
      | (some o, st1) =>
        let pr := allocBatch n st1 rest
        (o :: pr.1, pr.2.1, pr.2.2)
      | (none, st1) => ([], st1, rest)

/-- The push phase of one `prewarm` batch (lines 344-351): `try_push` each
allocated object; on the first push failure, destroy the object and the rest
of the batch and signal a stop. -/
def pushBatch (P : Nat) (batch : List Nat) (st : PoolState) : PoolState × Bool :=
  match batch with
  | [] => (st, false)
  | o :: os =>
    if st.ring.length < P then pushBatch P os { st with ring := st.ring ++ [o] }
    else ((o :: os).foldl (fun s x => safe_destroy_and_deallocate (some x) s) st, true)

/-- The `while (count > 0)` loop of `prewarm` (lines 331-353).  Each iteration
allocates up to `min count 32` objects, returns when a batch allocates
nothing, pushes the batch (stopping on push failure) and continues with the
remaining count.  `fuel = count` bounds the iterations: every continuing
iteration decreases `count` by at least one. -/
def prewarmLoop (P : Nat) (fuel : Nat) (count : Nat) (st : PoolState)
    (oracle : List AllocEv) : PoolState :=
  match fuel with
  | 0 => st
  | fuel + 1 =>
    if count = 0 then st
    else
      match allocBatch (min count 32) st oracle with
      | ([], st1, _) => st1
      | (o :: os, st1, rest) =>
        match pushBatch P (o :: os) st1 with
        | (st2, true) => st2
        | (st2, false) => prewarmLoop P fuel (count - (o :: os).length) st2 rest

/-- `prewarm` (lines 320-354): refuse when shut down, clamp the count to
`PoolSize - m_queue.was_size()` (the `size_t` subtraction is exact on states
satisfying the ring-capacity invariant `ring.length ≤ PoolSize`), then run the
batched loop. -/
def prewarm (P : Nat) (count : Nat) (oracle : List AllocEv) (st : PoolState) : PoolState :=
  if st.shutdown then st
  else
    let c := min count (P - st.ring.length)
    if c = 0 then st else prewarmLoop P c c st oracle

/-- `flush_local_cache` (lines 362-368): when the cache is non-empty, batch
return the span `data[0..size)` to the global pool and reset the size.  The
cache validity flag is never consulted. -/
def flush_local_cache (P : Nat) (st : PoolState) : PoolState :=
  if st.cache.data.length > 0 then
    let st1 := batch_return_to_global P st.cache.data st
    { st1 with cache := { st1.cache with data := [] } }
  else st

/-- Batched `try_pop` used by `shrink` (line 386): pop up to `k` elements. -/
def popBatch (k : Nat) (st : PoolState) : List Nat × PoolState :=
  match k with
  | 0 => ([], st)
  | k + 1 =>
    match st.ring with
    | [] => ([], st)
    | o :: rest =>
      let pr := popBatch k { st with ring := rest }
      (o :: pr.1, pr.2)

/-- The `while (released < max)` loop of `shrink` (lines 383-396): pop a batch
of at most `min (max - released) 16`, stop when it is empty, otherwise destroy
it and continue.  `fuel = max + 1` bounds the iterations. -/
def shrinkLoop (fuel maxN released : Nat) (st : PoolState) : PoolState × Nat :=
  match fuel with
  | 0 => (st, released)
  | fuel + 1 =>
    if released < maxN then
      match popBatch (min (maxN - released) 16) st with
      | ([], st1) => (st1, released)
      | (o :: os, st1) =>
        shrinkLoop fuel maxN (released + (o :: os).length)
          ((o :: os).foldl (fun s x => safe_destroy_and_deallocate (some x) s) st1)
    else (st, released)

/-- `shrink` (lines 378-398): flush the local cache, then destroy up to `maxN`
objects popped from the ring; returns the new state and the destroyed count. -/
def shrink (P : Nat) (maxN : Nat) (st : PoolState) : PoolState × Nat :=
  shrinkLoop (maxN + 1) maxN 0 (flush_local_cache P st)

/-- `create_new` of the raw-pointer variant (lines 1475-1505): no dedicated
`std::bad_alloc` handler; the catch-all deallocates a non-null block, rolls
back `in_use` and rethrows.  A `none` result means the exception propagated to
the caller (the block pointer was still null when `allocate` threw, so nothing
is deallocated). -/
def create_newRaw (allocOk : Bool) (st : PoolState) : Option Nat × PoolState :=
  let st1 := { st with stats := { st.stats with creates := ctrInc st.stats.creates } }
  if allocOk then
    (some st1.nextSlot, { st1 with nextSlot := st1.nextSlot + 1 })
  else
    (none, { st1 with stats := { st1.stats with in_use := ctrDec st1.stats.in_use } })

/-- `acquire` of the raw-pointer variant (lines 1024-1085): when the shutdown
flag is set it does not report an error — it immediately calls `create_new`.
Otherwise the structure matches the primary variant (prefetch hints and the
trivially-copyable early return affect only the payload). -/
def acquireRaw (allocOk : Bool) (st : PoolState) : Option Nat × PoolState :=
  if st.shutdown then create_newRaw allocOk st
  else
    let st1 := { st with stats := { st.stats with
      acquires := ctrInc st.stats.acquires,
      in_use := ctrInc st.stats.in_use } }
    match st1.cache.data, st1.cache.valid with
    | d :: ds, true =>
      (some (List.getLast (d :: ds) (List.cons_ne_nil d ds)),
        { st1 with
          cache := { st1.cache with data := (d :: ds).dropLast },
          stats := { st1.stats with
            same_thread_hits := ctrInc st1.stats.same_thread_hits,
            cache_hits := ctrInc st1.stats.cache_hits } })
    | _, _ =>
      match st1.ring with
      | o :: rest =>
        (some o,
          { st1 with
            ring := rest,
            stats := { st1.stats with
              cross_thread_ops := ctrInc st1.stats.cross_thread_ops } })
      | [] => create_newRaw allocOk st1

/-- One pool as seen by the thread-exit rescue loop through the active-pool
registry: its shutdown flag and its global ring. -/
structure MiniPool where
  shutdown : Bool
  ring : List Nat
deriving Repr, DecidableEq

/-- The inner loop of the `ThreadCache` destructors: walk the active-pool
registry in order and offer `o` to the first pool whose shutdown flag is
unset via `safe_return_to_global` (which re-checks the flag and then
`try_push`es, failing exactly on a full ring).  `none` means no pool took the
slot. -/
def rescueSlot (P : Nat) (o : Nat) : List MiniPool → Option (List MiniPool)
  | [] => none
  | p :: ps =>
    if p.shutdown = false ∧ p.ring.length < P then
      some ({ p with ring := p.ring ++ [o] } :: ps)
    else
      match rescueSlot P o ps with
      | some ps' => some (p :: ps')
      | none => none

/-- Common core of the three `ThreadCache` destructors: invalidate, then try
to rescue each remaining cached slot into some registered pool.  Returns the
updated registry and the list of slots no pool absorbed.  In the primary
variant (lines 640-662) those slots are simply dropped — leaked, with no call
to the allocation adapter; in the raw-pointer (lines 1377-1414) and middle
(lines 2171-2191) variants they are destroyed with plain `delete`, which also
bypasses the allocation adapter. -/
def threadCacheDtorCore (P : Nat) : List Nat → List MiniPool → List MiniPool × List Nat
  | [], pools => (pools, [])
  | o :: os, pools =>
    match rescueSlot P o pools with
    | some pools' => threadCacheDtorCore P os pools'
    | none =>
      let pr := threadCacheDtorCore P os pools
      (pr.1, o :: pr.2)

/-- `ThreadCache::~ThreadCache` of the primary variant (lines 640-662): the
second component is the list of slots that are leaked (the `if (!returned)`
fallback was deliberately removed from this variant). -/
def threadCacheDtorA (P : Nat) (objs : List Nat) (pools : List MiniPool) :
    List MiniPool × List Nat :=
  threadCacheDtorCore P objs pools

/-- `ThreadCache::~ThreadCache` of the raw-pointer (lines 1377-1414) and
middle (lines 2171-2191) variants: the second component is the list of slots
destroyed with plain `delete`, not with the allocation adapter. -/
def threadCacheDtorDelete (P : Nat) (objs : List Nat) (pools : List MiniPool) :
    List MiniPool × List Nat :=
  threadCacheDtorCore P objs pools

/-- The pool operations of the primary variant, as a sequential step
language.  `shutdownOp` is the first statement of the destructor (setting the
shutdown flag); `safeReturnOp` and `batchReturnOp` are the return entry points
used by peers. -/
inductive PoolOp where
  | acquireOp (allocOk : Bool)
  | releaseOp (obj : Option Nat) (sameThread : Bool)
  | flushOp
  | prewarmOp (count : Nat) (oracle : List AllocEv)
  | batchReturnOp (objs : List Nat)
  | safeReturnOp (obj : Nat)
  | shrinkOp (maxN : Nat)
  | shutdownOp
deriving Repr, DecidableEq

/-- Sequential interpretation of one pool operation of the primary variant. -/
def stepOp (P L : Nat) (op : PoolOp) (st : PoolState) : PoolState :=
  match op with
  | PoolOp.acquireOp ok => (acquire ok st).2
  | PoolOp.releaseOp o s => release P L s o st
  | PoolOp.flushOp => flush_local_cache P st
  | PoolOp.prewarmOp c orc => prewarm P c orc st
  | PoolOp.batchReturnOp objs => batch_return_to_global P objs st
  | PoolOp.safeReturnOp o => (safe_return_to_global P o st).2
  | PoolOp.shrinkOp m => (shrink P m st).1
  | PoolOp.shutdownOp => { st with shutdown := true }

/-- One event of a caller-visible acquire/release history: `acq ok` is an
`acquire()` call whose slow-path allocation (if reached) succeeds iff `ok`;
`rel idx sameT` releases the `idx`-th currently held slot (a no-op when no
such slot is held, so that every trace is a well-formed call sequence). -/
inductive ARev where
  | acq (allocOk : Bool)
  | rel (idx : Nat) (sameThread : Bool)
deriving Repr, DecidableEq

/-- Pool state plus trace bookkeeping: `held` are the slots currently out with
the caller and `failed` counts the acquire calls that returned
`AllocationFailed` (a ghost history variable, not a stored counter). -/
structure TraceState where
  pool : PoolState
  held : List Nat := []
  failed : Nat := 0
deriving Repr, DecidableEq

/-- Run one acquire/release event against the pool of the primary variant. -/
def stepAR (P L : Nat) (s : TraceState) (e : ARev) : TraceState :=
  match e with
  | ARev.acq ok =>
    match acquire ok s.pool with
    | (Except.ok o, st') => { pool := st', held := s.held ++ [o], failed := s.failed }
    | (Except.error PoolError.AllocationFailed, st') =>
      { pool := st', held := s.held, failed := s.failed + 1 }
    | (Except.error PoolError.Shutdown, st') =>
      { pool := st', held := s.held, failed := s.failed }
  | ARev.rel idx sameT =>
    if h : idx < s.held.length then
      { pool := release P L sameT (some (s.held.get ⟨idx, h⟩)) s.pool,
        held := s.held.eraseIdx idx, failed := s.failed }
    else s

/-- Run a whole acquire/release history. -/
def runAR (P L : Nat) (es : List ARev) (s : TraceState) : TraceState :=
  es.foldl (stepAR P L) s

/-- The pool-evolution relation witnessed by the rescue loop: shutdown flags
never change, a pool whose flag is set is untouched, and rings only grow. -/
def PoolEvol (p q : MiniPool) : Prop :=
  p.shutdown = q.shutdown ∧ (p.shutdown = true → q = p) ∧ ∀ x, x ∈ p.ring → x ∈ q.ring

/-- Counter invariant carried along an acquire/release history: the pool is
live, the stored counters are reduced `size_t` values, and `acquires` agrees
with `releases + in_use` plus the number of failed acquires modulo `2^64`. -/
def CtrInv (s : TraceState) : Prop :=
  s.pool.shutdown = false ∧
  s.pool.stats.acquires < SIZE_T_MOD ∧
  s.pool.stats.releases < SIZE_T_MOD ∧
  s.pool.stats.in_use < SIZE_T_MOD ∧
  s.pool.stats.acquires =
    (s.pool.stats.releases + s.pool.stats.in_use + s.failed) % SIZE_T_MOD

theorem ctrInc_lt (n : Nat) : ctrInc n < SIZE_T_MOD := by
  unfold ctrInc SIZE_T_MOD; omega

theorem ctrDec_lt (n : Nat) : ctrDec n < SIZE_T_MOD := by
  unfold ctrDec SIZE_T_MOD; omega

theorem ctrDec_ctrInc (n : Nat) (h : n < SIZE_T_MOD) : ctrDec (ctrInc n) = n := by
  unfold ctrDec ctrInc SIZE_T_MOD at *; omega

theorem destroy_fold_spec (objs : List Nat) (st : PoolState) :
    objs.foldl (fun s o => safe_destroy_and_deallocate (some o) s) st =
      { st with deallocs := st.deallocs ++ objs } := by
  induction objs generalizing st with
  | nil => simp
  | cons o os ih =>
    rw [List.foldl_cons, ih]
    simp [safe_destroy_and_deallocate, List.append_assoc]

theorem returnOne_spec (P : Nat) (st : PoolState) (o : Nat) :
    returnOne P st o =
      if st.shutdown = false ∧ st.ring.length < P then
        { st with ring := st.ring ++ [o] }
      else
        { st with deallocs := st.deallocs ++ [o] } := by
  unfold returnOne safe_return_to_global safe_destroy_and_deallocate
  rcases hs : st.shutdown with _ | _ <;> simp [hs]
  split <;> simp_all

theorem foldl_returnOne_cache (P : Nat) (objs : List Nat) (st : PoolState) :
    (objs.foldl (returnOne P) st).cache = st.cache := by
  induction objs generalizing st with
  | nil => rfl
  | cons o os ih =>
    rw [List.foldl_cons, ih, returnOne_spec]
    split <;> rfl

theorem foldl_returnOne_shutdown (P : Nat) (objs : List Nat) (st : PoolState) :
    (objs.foldl (returnOne P) st).shutdown = st.shutdown := by
  induction objs generalizing st with
  | nil => rfl
  | cons o os ih =>
    rw [List.foldl_cons, ih, returnOne_spec]
    split <;> rfl

theorem foldl_returnOne_stats (P : Nat) (objs : List Nat) (st : PoolState) :
    (objs.foldl (returnOne P) st).stats = st.stats := by
  induction objs generalizing st with
  | nil => rfl
  | cons o os ih =>
    rw [List.foldl_cons, ih, returnOne_spec]
    split <;> rfl

theorem foldl_returnOne_ring_mem (P : Nat) (objs : List Nat) (st : PoolState) (x : Nat)
    (h : x ∈ st.ring) : x ∈ (objs.foldl (returnOne P) st).ring := by
  induction objs generalizing st with
  | nil => exact h
  | cons o os ih =>
    rw [List.foldl_cons]
    refine ih _ ?_
    rw [returnOne_spec]
    split
    · simpa using Or.inl h
    · exact h

theorem foldl_returnOne_deallocs_mem (P : Nat) (objs : List Nat) (st : PoolState) (x : Nat)
    (h : x ∈ st.deallocs) : x ∈ (objs.foldl (returnOne P) st).deallocs := by
  induction objs generalizing st with
  | nil => exact h
  | cons o os ih =>
    rw [List.foldl_cons]
    refine ih _ ?_
    rw [returnOne_spec]
    split
    · exact h
    · simpa using Or.inl h

theorem foldl_returnOne_mem (P : Nat) (objs : List Nat) (st : PoolState) (x : Nat)
    (h : x ∈ objs) :
    x ∈ (objs.foldl (returnOne P) st).ring ∨ x ∈ (objs.foldl (returnOne P) st).deallocs := by
  induction objs generalizing st with
  | nil => cases h
  | cons o os ih =>
    rw [List.foldl_cons]
    rcases List.mem_cons.mp h with rfl | hm
    · rw [returnOne_spec]
      split
      · exact Or.inl (foldl_returnOne_ring_mem P os _ x (by simp))
      · exact Or.inr (foldl_returnOne_deallocs_mem P os _ x (by simp))
    · exact ih _ hm

theorem batch_return_cache (P : Nat) (objs : List Nat) (st : PoolState) :
    (batch_return_to_global P objs st).cache = st.cache := by
  unfold batch_return_to_global
  split
  · rw [destroy_fold_spec]
  · rw [foldl_returnOne_cache]

theorem batch_return_shutdown (P : Nat) (objs : List Nat) (st : PoolState) :
    (batch_return_to_global P objs st).shutdown = st.shutdown := by
  unfold batch_return_to_global
  split
  · rw [destroy_fold_spec]
  · rw [foldl_returnOne_shutdown]

theorem batch_return_mem (P : Nat) (objs : List Nat) (st : PoolState) (x : Nat)
    (h : x ∈ objs) :
    x ∈ (batch_return_to_global P objs st).ring ∨
      x ∈ (batch_return_to_global P objs st).deallocs := by
  unfold batch_return_to_global
  split
  · rw [destroy_fold_spec]
    exact Or.inr (by simpa using Or.inr h)
  · exact foldl_returnOne_mem P objs _ x h

theorem flush_cache_data (P : Nat) (st : PoolState) :
    (flush_local_cache P st).cache.data = [] := by
  unfold flush_local_cache
  split
  · rfl
  · next h =>
      have hl : st.cache.data.length = 0 := by omega
      exact List.eq_nil_of_length_eq_zero hl

theorem flush_shutdown (P : Nat) (st : PoolState) :
    (flush_local_cache P st).shutdown = st.shutdown := by
  unfold flush_local_cache
  split
  · exact batch_return_shutdown P _ st
  · rfl

theorem flush_cache_valid (P : Nat) (st : PoolState) :
    (flush_local_cache P st).cache.valid = st.cache.valid := by
  unfold flush_local_cache
  split
  · rw [show (let st1 := batch_return_to_global P st.cache.data st;
      ({ st1 with cache := { st1.cache with data := [] } } : PoolState)).cache.valid =
        (batch_return_to_global P st.cache.data st).cache.valid from rfl,
      batch_return_cache]
  · rfl

theorem acquire_of_shutdown (allocOk : Bool) (st : PoolState) (h : st.shutdown = true) :
    acquire allocOk st = (Except.error PoolError.Shutdown, st) := by
  unfold acquire
  simp [h]

theorem safe_return_of_shutdown (P : Nat) (o : Nat) (st : PoolState)
    (h : st.shutdown = true) : safe_return_to_global P o st = (false, st) := by
  unfold safe_return_to_global
  simp [h]

theorem batch_return_of_shutdown (P : Nat) (objs : List Nat) (st : PoolState)
    (h : st.shutdown = true) :
    batch_return_to_global P objs st = { st with deallocs := st.deallocs ++ objs } := by
  unfold batch_return_to_global
  rw [if_pos h, destroy_fold_spec]

theorem release_of_shutdown (P L : Nat) (sameT : Bool) (o : Nat) (st : PoolState)
    (h : st.shutdown = true) :
    (release P L sameT (some o) st).ring = st.ring ∧
      (release P L sameT (some o) st).shutdown = true ∧
      (release P L sameT (some o) st).deallocs = st.deallocs ++ [o] := by
  rcases sameT with _ | _ <;>
    simp [release, safe_return_to_global, safe_destroy_and_deallocate, h]

theorem flush_of_shutdown_ring (P : Nat) (st : PoolState) (h : st.shutdown = true) :
    (flush_local_cache P st).ring = st.ring ∧
      (flush_local_cache P st).shutdown = true := by
  unfold flush_local_cache
  split
  · rw [batch_return_of_shutdown P _ st h]
    exact ⟨rfl, h⟩
  · exact ⟨rfl, h⟩

theorem prewarm_of_shutdown (P : Nat) (c : Nat) (oracle : List AllocEv) (st : PoolState)
    (h : st.shutdown = true) : prewarm P c oracle st = st := by
  unfold prewarm
  rw [if_pos h]

theorem popBatch_ring (k : Nat) (st : PoolState) :
    (popBatch k st).2.ring = st.ring.drop (popBatch k st).1.length ∧
      (popBatch k st).2.shutdown = st.shutdown ∧
      (popBatch k st).2.deallocs = st.deallocs := by
  induction k generalizing st with
  | zero => simp [popBatch]
  | succ k ih =>
    unfold popBatch
    rcases hr : st.ring with _ | ⟨o, rest⟩
    · simp [hr]
    · have := ih { st with ring := rest }
      simp only [List.length_cons]
      refine ⟨?_, this.2.1, this.2.2⟩
      rw [this.1]
      simp [hr]

theorem shrinkLoop_ring_drop (fuel maxN released : Nat) (st : PoolState) :
    (∃ k, (shrinkLoop fuel maxN released st).1.ring = st.ring.drop k) ∧
      (shrinkLoop fuel maxN released st).1.shutdown = st.shutdown := by
  induction fuel generalizing released st with
  | zero => exact ⟨⟨0, rfl⟩, rfl⟩
  | succ fuel ih =>
    unfold shrinkLoop
    split
    · split
      · next st1 heq =>
        have hpb := popBatch_ring (min (maxN - released) 16) st
        rw [heq] at hpb
        exact ⟨⟨0, by simpa using hpb.1⟩, hpb.2.1⟩
      · next o os st1 heq =>
        have hpb := popBatch_ring (min (maxN - released) 16) st
        rw [heq] at hpb
        have hfold := destroy_fold_spec (o :: os) st1
        have hrec := ih (released + (o :: os).length)
          ((o :: os).foldl (fun s x => safe_destroy_and_deallocate (some x) s) st1)
        constructor
        · obtain ⟨k, hk⟩ := hrec.1
          refine ⟨(o :: os).length + k, ?_⟩
          rw [hk, hfold]
          have hr1 : (({ st1 with deallocs := st1.deallocs ++ o :: os } : PoolState)).ring
              = st1.ring := rfl
          rw [hr1]
          have hr2 : st1.ring = st.ring.drop (o :: os).length := hpb.1
          rw [hr2, List.drop_drop]
        · rw [hrec.2, hfold]
          exact hpb.2.1
    · exact ⟨⟨0, rfl⟩, rfl⟩

theorem shrink_of_shutdown (P maxN : Nat) (st : PoolState) (h : st.shutdown = true) :
    (∃ k, (shrink P maxN st).1.ring = st.ring.drop k) ∧
      (shrink P maxN st).1.shutdown = true := by
  unfold shrink
  have hf := flush_of_shutdown_ring P st h
  have hs := shrinkLoop_ring_drop (maxN + 1) maxN 0 (flush_local_cache P st)
  constructor
  · obtain ⟨k, hk⟩ := hs.1
    exact ⟨k, by rw [hk, hf.1]⟩
  · rw [hs.2, hf.2]

theorem poolEvol_refl (p : MiniPool) : PoolEvol p p :=
  ⟨rfl, fun _ => rfl, fun _ hx => hx⟩

theorem poolEvol_trans {p q r : MiniPool} (h1 : PoolEvol p q) (h2 : PoolEvol q r) :
    PoolEvol p r := by
  refine ⟨h1.1.trans h2.1, ?_, fun x hx => h2.2.2 x (h1.2.2 x hx)⟩
  intro hp
  have hq : q = p := h1.2.1 hp
  have : q.shutdown = true := h1.1 ▸ hp
  rw [h2.2.1 this, hq]

theorem forall2_evol_refl (l : List MiniPool) : List.Forall₂ PoolEvol l l := by
  induction l with
  | nil => exact List.Forall₂.nil
  | cons p ps ih => exact List.Forall₂.cons (poolEvol_refl p) ih

theorem forall2_evol_trans {a b c : List MiniPool} (h1 : List.Forall₂ PoolEvol a b)
    (h2 : List.Forall₂ PoolEvol b c) : List.Forall₂ PoolEvol a c := by
  induction h1 generalizing c with
  | nil => cases h2; exact List.Forall₂.nil
  | cons hp _ ih =>
    cases h2 with
    | cons hq h2' => exact List.Forall₂.cons (poolEvol_trans hp hq) (ih h2')

theorem forall2_mem_left {R : MiniPool → MiniPool → Prop} {l l' : List MiniPool}
    (h : List.Forall₂ R l l') {a : MiniPool} (ha : a ∈ l) : ∃ b ∈ l', R a b := by
  induction h with
  | nil => cases ha
  | cons hr htail ih =>
    rcases List.mem_cons.mp ha with rfl | ha'
    · exact ⟨_, List.mem_cons_self _ _, hr⟩
    · obtain ⟨b, hb, hrb⟩ := ih ha'
      exact ⟨b, List.mem_cons_of_mem _ hb, hrb⟩

theorem rescueSlot_evol (P o : Nat) (pools pools' : List MiniPool)
    (h : rescueSlot P o pools = some pools') : List.Forall₂ PoolEvol pools pools' := by
  induction pools generalizing pools' with
  | nil => simp [rescueSlot] at h
  | cons p ps ih =>
    unfold rescueSlot at h
    split at h
    · next hc =>
      cases h
      refine List.Forall₂.cons ⟨rfl, ?_, fun x hx => by simp [hx]⟩ (forall2_evol_refl ps)
      intro hp
      rw [hc.1] at hp
      cases hp
    · split at h
      · next ps' hps' =>
        cases h
        exact List.Forall₂.cons (poolEvol_refl p) (ih ps' hps')
      · cases h

theorem rescueSlot_mem (P o : Nat) (pools pools' : List MiniPool)
    (h : rescueSlot P o pools = some pools') :
    ∃ q ∈ pools', q.shutdown = false ∧ o ∈ q.ring := by
  induction pools generalizing pools' with
  | nil => simp [rescueSlot] at h
  | cons p ps ih =>
    unfold rescueSlot at h
    split at h
    · next hc =>
      cases h
      exact ⟨_, List.mem_cons_self _ _, hc.1, by simp⟩
    · split at h
      · next ps' hps' =>
        cases h
        obtain ⟨q, hq, hqs⟩ := ih ps' hps'
        exact ⟨q, List.mem_cons_of_mem _ hq, hqs⟩
      · cases h

theorem dtorCore_evol (P : Nat) (objs : List Nat) (pools : List MiniPool) :
    List.Forall₂ PoolEvol pools (threadCacheDtorCore P objs pools).1 := by
  induction objs generalizing pools with
  | nil => exact forall2_evol_refl pools
  | cons o os ih =>
    unfold threadCacheDtorCore
    split
    · next pools' hres =>
      exact forall2_evol_trans (rescueSlot_evol P o pools pools' hres) (ih pools')
    · exact ih pools

theorem dtorCore_account (P : Nat) (objs : List Nat) (pools : List MiniPool) (o : Nat)
    (h : o ∈ objs) :
    o ∈ (threadCacheDtorCore P objs pools).2 ∨
      ∃ q ∈ (threadCacheDtorCore P objs pools).1, q.shutdown = false ∧ o ∈ q.ring := by
  induction objs generalizing pools with
  | nil => cases h
  | cons x os ih =>
    rcases List.mem_cons.mp h with rfl | hm
    · unfold threadCacheDtorCore
      split
      · next pools' hres =>
        obtain ⟨q, hq, hqs, hor⟩ := rescueSlot_mem P o pools pools' hres
        obtain ⟨q', hq', hev⟩ := forall2_mem_left (dtorCore_evol P os pools') hq
        refine Or.inr ⟨q', hq', ?_, hev.2.2 o hor⟩
        rw [← hev.1]
        exact hqs
      · exact Or.inl (by simp)
    · unfold threadCacheDtorCore
      split
      · next pools' _ => exact ih pools' hm
      · rcases ih pools hm with hl | hr
        · exact Or.inl (by simp [hl])
        · exact Or.inr hr

theorem acquire_stats (ok : Bool) (st : PoolState) (h : st.shutdown = false) :
    (acquire ok st).2.stats.acquires = ctrInc st.stats.acquires ∧
      (acquire ok st).2.stats.releases = st.stats.releases ∧
      (acquire ok st).2.shutdown = false ∧
      (((acquire ok st).1 = Except.error PoolError.AllocationFailed ∧
          (acquire ok st).2.stats.in_use = ctrDec (ctrInc st.stats.in_use)) ∨
        ((∃ o, (acquire ok st).1 = Except.ok o) ∧
          (acquire ok st).2.stats.in_use = ctrInc st.stats.in_use)) := by
  simp only [acquire, h, Bool.false_eq_true, if_false]
  split
  · simp [h]
  · split
    · simp [h]
    · unfold create_new
      rcases ok with _ | _ <;> simp [h]

theorem release_stats (P L : Nat) (sameT : Bool) (o : Nat) (st : PoolState) :
    (release P L sameT (some o) st).stats.acquires = st.stats.acquires ∧
      (release P L sameT (some o) st).stats.releases = ctrInc st.stats.releases ∧
      (release P L sameT (some o) st).stats.in_use = ctrDec st.stats.in_use ∧
      (release P L sameT (some o) st).shutdown = st.shutdown := by
  simp only [release]
  split
  · simp
  · simp only [safe_return_to_global, safe_destroy_and_deallocate]
    rcases hs : st.shutdown with _ | _ <;> rcases sameT with _ | _ <;>
      simp [hs] <;> split <;> simp

theorem ctrInv_stepAR (P L : Nat) (s : TraceState) (e : ARev) (h : CtrInv s) :
    CtrInv (stepAR P L s e) := by
  obtain ⟨hsd, ha, hr, hu, heq⟩ := h
  rcases e with ok | ⟨idx, sameT⟩
  · have hst := acquire_stats ok s.pool hsd
    rcases hres : acquire ok s.pool with ⟨res, st'⟩
    rw [hres] at hst
    obtain ⟨h1, h2, h3, h4⟩ := hst
    have h1' : st'.stats.acquires = ctrInc s.pool.stats.acquires := h1
    have h2' : st'.stats.releases = s.pool.stats.releases := h2
    have h3' : st'.shutdown = false := h3
    rcases res with err | o
    · rcases err with _ | _
      · rcases h4 with ⟨hbad, _⟩ | ⟨⟨o, hok⟩, _⟩
        · exact absurd hbad (by simp)
        · exact absurd hok (by simp)
      · have hstep : stepAR P L s (ARev.acq ok) =
            { pool := st', held := s.held, failed := s.failed + 1 } := by
          simp [stepAR, hres]
        rw [hstep]
        rcases h4 with ⟨_, hin⟩ | ⟨⟨o, hok⟩, _⟩
        · have hin' : st'.stats.in_use = ctrDec (ctrInc s.pool.stats.in_use) := hin
          refine ⟨h3', ?_, ?_, ?_, ?_⟩
          · show st'.stats.acquires < SIZE_T_MOD
            rw [h1']; exact ctrInc_lt _
          · show st'.stats.releases < SIZE_T_MOD
            rw [h2']; exact hr
          · show st'.stats.in_use < SIZE_T_MOD
            rw [hin']; exact ctrDec_lt _
          · show st'.stats.acquires =
              (st'.stats.releases + st'.stats.in_use + (s.failed + 1)) % SIZE_T_MOD
            rw [h1', h2', hin']
            unfold ctrInc ctrDec SIZE_T_MOD at *
            omega
        · exact absurd hok (by simp)
    · have hstep : stepAR P L s (ARev.acq ok) =
          { pool := st', held := s.held ++ [o], failed := s.failed } := by
        simp [stepAR, hres]
      rw [hstep]
      rcases h4 with ⟨hbad, _⟩ | ⟨_, hin⟩
      · exact absurd hbad (by simp)
      · have hin' : st'.stats.in_use = ctrInc s.pool.stats.in_use := hin
        refine ⟨h3', ?_, ?_, ?_, ?_⟩
        · show st'.stats.acquires < SIZE_T_MOD
          rw [h1']; exact ctrInc_lt _
        · show st'.stats.releases < SIZE_T_MOD
          rw [h2']; exact hr
        · show st'.stats.in_use < SIZE_T_MOD
          rw [hin']; exact ctrInc_lt _
        · show st'.stats.acquires =
            (st'.stats.releases + st'.stats.in_use + s.failed) % SIZE_T_MOD
          rw [h1', h2', hin']
          unfold ctrInc SIZE_T_MOD at *
          omega
  · by_cases hidx : idx < s.held.length
    · have hstep : stepAR P L s (ARev.rel idx sameT) =
          { pool := release P L sameT (some (s.held.get ⟨idx, hidx⟩)) s.pool,
            held := s.held.eraseIdx idx, failed := s.failed } := by
        simp [stepAR, hidx]
      rw [hstep]
      obtain ⟨h1, h2, h3, h4⟩ :=
        release_stats P L sameT (s.held.get ⟨idx, hidx⟩) s.pool
      refine ⟨?_, ?_, ?_, ?_, ?_⟩
      · show (release P L sameT (some (s.held.get ⟨idx, hidx⟩)) s.pool).shutdown = false
        rw [h4]; exact hsd
      · show (release P L sameT (some (s.held.get ⟨idx, hidx⟩)) s.pool).stats.acquires <
          SIZE_T_MOD
        rw [h1]; exact ha
      · show (release P L sameT (some (s.held.get ⟨idx, hidx⟩)) s.pool).stats.releases <
          SIZE_T_MOD
        rw [h2]; exact ctrInc_lt _
      · show (release P L sameT (some (s.held.get ⟨idx, hidx⟩)) s.pool).stats.in_use <
          SIZE_T_MOD
        rw [h3]; exact ctrDec_lt _
      · show (release P L sameT (some (s.held.get ⟨idx, hidx⟩)) s.pool).stats.acquires =
          ((release P L sameT (some (s.held.get ⟨idx, hidx⟩)) s.pool).stats.releases +
            (release P L sameT (some (s.held.get ⟨idx, hidx⟩)) s.pool).stats.in_use +
            s.failed) % SIZE_T_MOD
        rw [h1, h2, h3]
        unfold ctrInc ctrDec SIZE_T_MOD at *
        omega
    · have hstep : stepAR P L s (ARev.rel idx sameT) = s := by
        simp [stepAR, hidx]
      rw [hstep]
      exact ⟨hsd, ha, hr, hu, heq⟩

theorem ctrInv_runAR (P L : Nat) (es : List ARev) (s : TraceState) (h : CtrInv s) :
    CtrInv (runAR P L es s) := by
  induction es generalizing s with
  | nil => exact h
  | cons e es ih =>
    unfold runAR at *
    rw [List.foldl_cons]
    exact ih _ (ctrInv_stepAR P L s e h)

theorem acquire_cache_of_invalid (ok : Bool) (st : PoolState)
    (hv : st.cache.valid = false) : (acquire ok st).2.cache = st.cache := by
  by_cases hs : st.shutdown = true
  · simp [acquire, hs]
  · simp only [acquire, hs, Bool.false_eq_true, if_false, ite_false]
    split
    · next heq1 heq2 => exact absurd heq2 (by simp [hv])
    · split
      · rfl
      · unfold create_new
        rcases ok with _ | _ <;> rfl

theorem release_cache_of_invalid (P L : Nat) (sameT : Bool) (o : Nat) (st : PoolState)
    (hv : st.cache.valid = false) :
    (release P L sameT (some o) st).cache = st.cache := by
  simp only [release]
  rw [if_neg (by simp [hv])]
  simp only [safe_return_to_global, safe_destroy_and_deallocate]
  rcases hs : st.shutdown with _ | _ <;> rcases sameT with _ | _ <;>
    simp [hs] <;> split <;> simp

/-- C1 counterexample: in the raw-pointer variant (lines 1024-1085), `acquire`
on a pool whose shutdown flag is set does not return a `Shutdown` error — it
calls `create_new`, which allocates a fresh block (`nextSlot` goes from 0 to
1) and increments the `creates` counter, contradicting the claim that acquire
after shutdown returns the Shutdown error variant, does not allocate and
leaves every statistics counter unchanged. -/
theorem c1_counterexample :
    (acquireRaw true ({ shutdown := true } : PoolState)).1 = some 0 ∧
      (acquireRaw true ({ shutdown := true } : PoolState)).2.nextSlot = 1 ∧
      (acquireRaw true ({ shutdown := true } : PoolState)).2.stats.creates = 1 ∧
      ¬((acquireRaw true ({ shutdown := true } : PoolState)).2.stats.creates =
        ({ shutdown := true } : PoolState).stats.creates) := by
  refine ⟨?_, ?_, ?_, ?_⟩ <;> decide

/-- C1 amended: in the primary expected-based variant, `acquire` on a
shut-down pool returns the `Shutdown` error variant, does not allocate and
leaves the whole pool state (hence every statistics counter) unchanged; the
raw-pointer variant instead forwards to `create_new`, incrementing `creates`
and, when allocation succeeds, allocating and returning a fresh object. -/
theorem c1_amended (ok : Bool) (st : PoolState) (h : st.shutdown = true) :
    acquire ok st = (Except.error PoolError.Shutdown, st) ∧
      (acquireRaw ok st).2.stats.creates = ctrInc st.stats.creates ∧
      (ok = true → (acquireRaw ok st).1 = some st.nextSlot ∧
        (acquireRaw ok st).2.nextSlot = st.nextSlot + 1) := by
  refine ⟨acquire_of_shutdown ok st h, ?_, ?_⟩
  · rcases ok with _ | _ <;> simp [acquireRaw, create_newRaw, h]
  · rintro rfl
    simp [acquireRaw, create_newRaw, h]

/-- C1 amended, witness at a concrete shut-down pool. -/
theorem c1_amended_witness :
    (({ shutdown := true, ring := [4] } : PoolState).shutdown = true) ∧
      (acquire true ({ shutdown := true, ring := [4] } : PoolState) =
        (Except.error PoolError.Shutdown, { shutdown := true, ring := [4] }) ∧
      (acquireRaw true ({ shutdown := true, ring := [4] } : PoolState)).2.stats.creates =
        ctrInc ({ shutdown := true, ring := [4] } : PoolState).stats.creates ∧
      (true = true →
        (acquireRaw true ({ shutdown := true, ring := [4] } : PoolState)).1 =
          some ({ shutdown := true, ring := [4] } : PoolState).nextSlot ∧
        (acquireRaw true ({ shutdown := true, ring := [4] } : PoolState)).2.nextSlot =
          ({ shutdown := true, ring := [4] } : PoolState).nextSlot + 1)) :=
  ⟨rfl, c1_amended true { shutdown := true, ring := [4] } rfl⟩

/-- C3: a slow-path acquire (empty thread cache, empty ring, live pool) whose
`allocate(1)` throws returns the `AllocationFailed` error variant and leaves
`in_use` exactly as it was before the call: the increment done at acquire
entry is undone by the `catch` in `create_new`. -/
theorem c3_alloc_failure_restores_in_use (st : PoolState) (h1 : st.shutdown = false)
    (h2 : st.cache.data = []) (h3 : st.ring = []) (h4 : st.stats.in_use < SIZE_T_MOD) :
    (acquire false st).1 = Except.error PoolError.AllocationFailed ∧
      (acquire false st).2.stats.in_use = st.stats.in_use := by
  simp only [acquire, h1, Bool.false_eq_true, if_false, ite_false, h2, h3, create_new]
  simp [ctrDec_ctrInc st.stats.in_use h4]

/-- C3, witness: a live pool with empty cache and ring and `in_use = 5`. -/
theorem c3_witness :
    (acquire false ({ stats := { in_use := 5 } } : PoolState)).1 =
        Except.error PoolError.AllocationFailed ∧
      (acquire false ({ stats := { in_use := 5 } } : PoolState)).2.stats.in_use =
        ({ stats := { in_use := 5 } } : PoolState).stats.in_use :=
  c3_alloc_failure_restores_in_use { stats := { in_use := 5 } } rfl rfl rfl (by decide)

/-- C4 counterexample: in the primary variant (lines 552-566), when
`allocate(1)` succeeds and the payload's default constructor throws,
`allocate_and_construct` returns null but the catch block does not deallocate:
one block was allocated (`nextSlot` = 1) and the adapter deallocation list is
still empty, contradicting the claim that any failure results in the
allocated block being deallocated. -/
theorem c4_counterexample :
    (allocate_and_construct (AllocEv.ok true) ({} : PoolState)).1 = none ∧
      (allocate_and_construct (AllocEv.ok true) ({} : PoolState)).2.nextSlot = 1 ∧
      (allocate_and_construct (AllocEv.ok true) ({} : PoolState)).2.deallocs = [] ∧
      ¬(0 ∈ (allocate_and_construct (AllocEv.ok true) ({} : PoolState)).2.deallocs) := by
  refine ⟨rfl, rfl, rfl, ?_⟩
  decide

/-- C4 amended: `allocate_and_construct` never propagates an exception and
returns null on every failure; on an allocation failure nothing was allocated
and there is nothing to deallocate; on a constructor exception the primary
variant leaks the allocated block (no deallocation), while the raw-pointer
variant (lines 1515-1540) deallocates it. -/
theorem c4_amended (st : PoolState) :
    (allocate_and_construct AllocEv.allocThrow st = (none, st)) ∧
      (allocate_and_construct AllocEv.allocNull st = (none, st)) ∧
      ((allocate_and_construct (AllocEv.ok true) st).1 = none ∧
        (allocate_and_construct (AllocEv.ok true) st).2 =
          { st with nextSlot := st.nextSlot + 1 }) ∧
      (allocate_and_constructRaw AllocEv.allocThrow st = (none, st)) ∧
      (allocate_and_constructRaw AllocEv.allocNull st = (none, st)) ∧
      ((allocate_and_constructRaw (AllocEv.ok true) st).1 = none ∧
        (allocate_and_constructRaw (AllocEv.ok true) st).2 =
          { st with nextSlot := st.nextSlot + 1,
                    deallocs := st.deallocs ++ [st.nextSlot] }) :=
  ⟨rfl, rfl, ⟨rfl, rfl⟩, rfl, rfl, ⟨rfl, rfl⟩⟩

/-- C8: flushing the local cache twice in a row is the same as flushing it
once — the first flush empties the cache, so the second call's `size > 0`
guard fails and it is a no-op on the whole pool state. -/
theorem c8_flush_idempotent (P : Nat) (st : PoolState) :
    flush_local_cache P (flush_local_cache P st) = flush_local_cache P st := by
  have h2 := flush_cache_data P st
  conv_lhs => rw [flush_local_cache]
  rw [if_neg (by rw [h2]; simp)]

/-- C2 counterexample: one acquire against an empty live pool whose allocator
fails gives `acquires = 1`, `releases = 0`, `in_use = 0` — the call counted
the acquire but rolled back only `in_use`, so `acquires = releases + in_use`
fails at a quiescent point of a sequence containing an `AllocationFailed`
acquire, contradicting the claim that the balance includes failing acquires. -/
theorem c2_counterexample :
    ¬((runAR 2 2 [ARev.acq false] ⟨{}, [], 0⟩).pool.stats.acquires =
        (runAR 2 2 [ARev.acq false] ⟨{}, [], 0⟩).pool.stats.releases +
          (runAR 2 2 [ARev.acq false] ⟨{}, [], 0⟩).pool.stats.in_use) := by
  decide

/-- C2 amended: along every acquire/release history from a freshly
constructed pool (zero counters, live), at every quiescent point the counters
satisfy `acquires = (releases + in_use + failed) mod 2^64`, where `failed` is
the number of acquire calls that returned `AllocationFailed`; in particular
the claimed balance `acquires = releases + in_use` holds whenever no acquire
failed. -/
theorem c2_amended (P L : Nat) (es : List ARev) (st0 : PoolState)
    (h1 : st0.shutdown = false) (h2 : st0.stats.acquires = 0)
    (h3 : st0.stats.releases = 0) (h4 : st0.stats.in_use = 0) :
    (runAR P L es ⟨st0, [], 0⟩).pool.stats.acquires =
      ((runAR P L es ⟨st0, [], 0⟩).pool.stats.releases +
          (runAR P L es ⟨st0, [], 0⟩).pool.stats.in_use +
          (runAR P L es ⟨st0, [], 0⟩).failed) % SIZE_T_MOD := by
  have hinv : CtrInv ⟨st0, [], 0⟩ := by
    refine ⟨h1, ?_, ?_, ?_, ?_⟩ <;> simp [h2, h3, h4] <;> decide
  exact (ctrInv_runAR P L es _ hinv).2.2.2.2

/-- C2 amended, witness: a failing acquire, a successful acquire and a
release from a fresh pool. -/
theorem c2_amended_witness :
    (({} : PoolState).shutdown = false) ∧
      (runAR 2 2 [ARev.acq false, ARev.acq true, ARev.rel 0 true]
          ⟨{}, [], 0⟩).pool.stats.acquires =
        ((runAR 2 2 [ARev.acq false, ARev.acq true, ARev.rel 0 true]
              ⟨{}, [], 0⟩).pool.stats.releases +
            (runAR 2 2 [ARev.acq false, ARev.acq true, ARev.rel 0 true]
              ⟨{}, [], 0⟩).pool.stats.in_use +
            (runAR 2 2 [ARev.acq false, ARev.acq true, ARev.rel 0 true]
              ⟨{}, [], 0⟩).failed) % SIZE_T_MOD :=
  ⟨rfl, c2_amended 2 2 [ARev.acq false, ARev.acq true, ARev.rel 0 true] {} rfl rfl rfl rfl⟩

/-- C5 counterexample: `prewarm 2` with an allocator that succeeds, fails,
then succeeds again does not stop at the first allocation failure: the first
batch allocates one object (the second allocation fails), pushes it, and the
loop then attempts — and performs — a further allocation, ending with two
objects in the ring and nothing destroyed.  Under the claim, the operation
would have stopped at the failure with a single object pushed. -/
theorem c5_counterexample :
    (prewarm 8 2 [AllocEv.ok false, AllocEv.allocNull, AllocEv.ok false]
        ({} : PoolState)).ring = [0, 1] ∧
      (prewarm 8 2 [AllocEv.ok false, AllocEv.allocNull, AllocEv.ok false]
        ({} : PoolState)).nextSlot = 2 ∧
      (prewarm 8 2 [AllocEv.ok false, AllocEv.allocNull, AllocEv.ok false]
        ({} : PoolState)).deallocs = [] ∧
      ¬((prewarm 8 2 [AllocEv.ok false, AllocEv.allocNull, AllocEv.ok false]
        ({} : PoolState)).nextSlot ≤ 1) := by
  refine ⟨?_, ?_, ?_, ?_⟩ <;> decide

/-- C5 amended: `prewarm` clamps the requested count to
`PoolSize - approx_size()` (on states satisfying the ring-capacity
invariant), creates and pushes objects in batches, and stops with the pool
unchanged when the first allocation of a batch fails; after a batch that
fails part-way it pushes the allocated members, destroys nothing, and keeps
attempting further allocations with the remaining count; only a `try_push`
failure destroys the not-yet-pushed members of the batch and stops. -/
theorem c5_amended (P : Nat) (st : PoolState) (c : Nat) (oracle rest : List AllocEv)
    (ev : AllocEv) (batch : List Nat) :
    (prewarm P c oracle st = prewarm P (min c (P - st.ring.length)) oracle st) ∧
      ((ev = AllocEv.allocThrow ∨ ev = AllocEv.allocNull) →
        prewarm P c (ev :: rest) st = st) ∧
      ((prewarm 8 3 [AllocEv.ok false, AllocEv.allocNull, AllocEv.ok false,
          AllocEv.ok false] ({} : PoolState)).ring = [0, 1, 2]) ∧
      (P ≤ st.ring.length → batch ≠ [] →
        pushBatch P batch st = ({ st with deallocs := st.deallocs ++ batch }, true)) := by
  refine ⟨?_, ?_, by decide, ?_⟩
  · unfold prewarm
    by_cases hs : st.shutdown = true
    · simp [hs]
    · simp only [hs, Bool.false_eq_true, if_false, ite_false]
      rw [Nat.min_assoc, Nat.min_self]
  · intro hev
    unfold prewarm
    by_cases hs : st.shutdown = true
    · simp [hs]
    · simp only [hs, Bool.false_eq_true, if_false, ite_false]
      by_cases hc : min c (P - st.ring.length) = 0
      · simp [hc]
      · rw [if_neg hc]
        obtain ⟨f, hf⟩ : ∃ f, min c (P - st.ring.length) = f + 1 :=
          ⟨min c (P - st.ring.length) - 1, by omega⟩
        rw [hf]
        obtain ⟨m, hm⟩ : ∃ m, min (f + 1) 32 = m + 1 :=
          ⟨min (f + 1) 32 - 1, by omega⟩
        unfold prewarmLoop
        rw [if_neg (by omega), hm]
        have hab : allocBatch (m + 1) st (ev :: rest) = ([], st, rest) := by
          rcases hev with rfl | rfl <;>
            simp [allocBatch, allocate_and_construct]
        rw [hab]
  · intro hfull hb
    rcases batch with _ | ⟨o, os⟩
    · exact absurd rfl hb
    · unfold pushBatch
      rw [if_neg (by omega), destroy_fold_spec]

/-- C5 amended, witness: a stop with nothing changed when the first
allocation fails, and the destroy-remainder path of `pushBatch` on a full
ring. -/
theorem c5_amended_witness :
    (AllocEv.allocNull = AllocEv.allocThrow ∨ AllocEv.allocNull = AllocEv.allocNull) ∧
      prewarm 2 3 [AllocEv.allocNull] ({ ring := [5, 6] } : PoolState) =
        ({ ring := [5, 6] } : PoolState) ∧
      pushBatch 2 [9] ({ ring := [5, 6] } : PoolState) =
        (({ ring := [5, 6], deallocs := [9] } : PoolState), true) :=
  ⟨Or.inr rfl,
    (c5_amended 2 { ring := [5, 6] } 3 [AllocEv.allocNull] [] AllocEv.allocNull
        [9]).2.1 (Or.inr rfl),
    (c5_amended 2 { ring := [5, 6] } 3 [AllocEv.allocNull] [] AllocEv.allocNull
        [9]).2.2.2 (by decide) (by decide)⟩

/-- C6: for a non-null released object, a same-thread release into a live
pool with a valid, non-full thread cache pushes the slot into the cache (ring
and adapter untouched); in every other case the slot is offered to the global
ring — it is appended when the pool is live and the ring has room, and
otherwise (pool shut down or ring full, i.e. the push fails) the slot is
destroyed and deallocated through the allocation adapter, the cache
untouched in both cases. -/
theorem c6_release_paths (P L : Nat) (sameT : Bool) (o : Nat) (st : PoolState) :
    ((sameT = true ∧ st.shutdown = false ∧ st.cache.valid = true ∧
        st.cache.data.length < L) →
      release P L sameT (some o) st =
        { st with
          cache := { st.cache with data := st.cache.data ++ [o] },
          stats := { st.stats with
            releases := ctrInc st.stats.releases,
            in_use := ctrDec st.stats.in_use } }) ∧
      (¬(sameT = true ∧ st.shutdown = false ∧ st.cache.valid = true ∧
          st.cache.data.length < L) →
        (st.shutdown = false ∧ st.ring.length < P →
          (release P L sameT (some o) st).ring = st.ring ++ [o] ∧
            (release P L sameT (some o) st).deallocs = st.deallocs ∧
            (release P L sameT (some o) st).cache = st.cache) ∧
        (st.shutdown = true ∨ P ≤ st.ring.length →
          (release P L sameT (some o) st).ring = st.ring ∧
            (release P L sameT (some o) st).deallocs = st.deallocs ++ [o] ∧
            (release P L sameT (some o) st).cache = st.cache)) := by
  constructor
  · intro hc
    simp only [release]
    rw [if_pos hc]
  · intro hc
    refine ⟨?_, ?_⟩
    · rintro ⟨hsf, hroom⟩
      simp only [release]
      rw [if_neg hc]
      simp only [safe_return_to_global, safe_destroy_and_deallocate]
      rcases sameT with _ | _ <;> simp [hsf, hroom]
    · intro hfail
      simp only [release]
      rw [if_neg hc]
      simp only [safe_return_to_global, safe_destroy_and_deallocate]
      rcases hfail with hsd | hfull
      · rcases sameT with _ | _ <;> simp [hsd]
      · rcases hs2 : st.shutdown with _ | _ <;> rcases sameT with _ | _ <;>
          simp [hs2, Nat.not_lt.mpr hfull]

/-- C6, witness: a same-thread release into a fresh pool lands in the thread
cache. -/
theorem c6_witness :
    (true = true ∧ ({} : PoolState).shutdown = false ∧
        ({} : PoolState).cache.valid = true ∧ ({} : PoolState).cache.data.length < 2) ∧
      release 2 2 true (some 7) ({} : PoolState) =
        { ({} : PoolState) with
          cache := { ({} : PoolState).cache with
            data := ({} : PoolState).cache.data ++ [7] },
          stats := { ({} : PoolState).stats with
            releases := ctrInc ({} : PoolState).stats.releases,
            in_use := ctrDec ({} : PoolState).stats.in_use } } :=
  ⟨by decide, (c6_release_paths 2 2 true 7 {}).1 (by decide)⟩

/-- C7 counterexample: in the primary variant's `ThreadCache` destructor
(lines 640-662) a cached slot that no registered pool absorbs — here the only
registered pool is shut down — is neither pushed into any ring nor destroyed:
the `if (!returned)` fallback was removed from that variant, so the slot ends
up in the leaked list and no allocation-adapter call is made, contradicting
"no slot is ever leaked". -/
theorem c7_counterexample :
    threadCacheDtorA 4 [7] [⟨true, []⟩] = ([⟨true, []⟩], [7]) := by
  decide

/-- C7 amended: on thread exit each remaining cached slot is either pushed
into the global ring of a registry pool whose shutdown flag is unset, or ends
up among the unabsorbed slots — which the primary variant leaks outright and
the raw-pointer and middle variants destroy with plain `delete`, bypassing
the allocation adapter; registry pools whose shutdown flag is set are never
touched, so no slot is ever handed to a pool in shutdown. -/
theorem c7_amended (P : Nat) (objs : List Nat) (pools : List MiniPool) :
    (∀ o ∈ objs,
      o ∈ (threadCacheDtorA P objs pools).2 ∨
        ∃ q ∈ (threadCacheDtorA P objs pools).1, q.shutdown = false ∧ o ∈ q.ring) ∧
      (∀ o ∈ objs,
        o ∈ (threadCacheDtorDelete P objs pools).2 ∨
          ∃ q ∈ (threadCacheDtorDelete P objs pools).1,
            q.shutdown = false ∧ o ∈ q.ring) ∧
      List.Forall₂ (fun p q => p.shutdown = q.shutdown ∧ (p.shutdown = true → q = p))
        pools (threadCacheDtorCore P objs pools).1 := by
  refine ⟨fun o ho => dtorCore_account P objs pools o ho,
    fun o ho => dtorCore_account P objs pools o ho, ?_⟩
  exact List.Forall₂.imp (fun p q hp => ⟨hp.1, hp.2.1⟩) (dtorCore_evol P objs pools)

/-- C7 amended, witness: one slot rescued into a live pool's ring. -/
theorem c7_amended_witness :
    5 ∈ (threadCacheDtorA 4 [5] [⟨false, []⟩]).2 ∨
      ∃ q ∈ (threadCacheDtorA 4 [5] [⟨false, []⟩]).1,
        q.shutdown = false ∧ 5 ∈ q.ring :=
  (c7_amended 4 [5] [⟨false, []⟩]).1 5 (by decide)

/-- C9: once the shutdown flag is set it stays set across every pool
operation, no operation adds a slot to the global ring (the resulting ring is
a suffix of the old one — unchanged except for the destructor-side drains of
`shrink`), a post-shutdown release destroys its slot through the allocation
adapter instead of enqueuing it, and the thread-exit rescue never touches a
registry pool whose shutdown flag is set. -/
theorem c9_shutdown_monotone (P L : Nat) (op : PoolOp) (st : PoolState)
    (h : st.shutdown = true) :
    (stepOp P L op st).shutdown = true ∧
      (∃ k, (stepOp P L op st).ring = st.ring.drop k) ∧
      (∀ o sameT, (stepOp P L (PoolOp.releaseOp (some o) sameT) st).deallocs =
        st.deallocs ++ [o]) ∧
      (∀ objs pools,
        List.Forall₂ (fun p q => p.shutdown = true → q = p) pools
          (threadCacheDtorCore P objs pools).1) := by
  refine ⟨?_, ?_, ?_, ?_⟩
  · rcases op with ok | ⟨obj, sT⟩ | _ | ⟨c, orc⟩ | objs | o | m | _
    · show ((acquire ok st).2).shutdown = true
      rw [acquire_of_shutdown ok st h]
      exact h
    · rcases obj with _ | o
      · exact h
      · exact (release_of_shutdown P L sT o st h).2.1
    · show (flush_local_cache P st).shutdown = true
      exact (flush_of_shutdown_ring P st h).2
    · show (prewarm P c orc st).shutdown = true
      rw [prewarm_of_shutdown P c orc st h]
      exact h
    · show (batch_return_to_global P objs st).shutdown = true
      rw [batch_return_of_shutdown P objs st h]
      exact h
    · show ((safe_return_to_global P o st).2).shutdown = true
      rw [safe_return_of_shutdown P o st h]
      exact h
    · exact (shrink_of_shutdown P m st h).2
    · rfl
  · rcases op with ok | ⟨obj, sT⟩ | _ | ⟨c, orc⟩ | objs | o | m | _
    · refine ⟨0, ?_⟩
      show ((acquire ok st).2).ring = st.ring.drop 0
      rw [acquire_of_shutdown ok st h]
      rfl
    · rcases obj with _ | o
      · exact ⟨0, rfl⟩
      · exact ⟨0, (release_of_shutdown P L sT o st h).1⟩
    · exact ⟨0, (flush_of_shutdown_ring P st h).1⟩
    · refine ⟨0, ?_⟩
      show (prewarm P c orc st).ring = st.ring.drop 0
      rw [prewarm_of_shutdown P c orc st h]
      rfl
    · refine ⟨0, ?_⟩
      show (batch_return_to_global P objs st).ring = st.ring.drop 0
      rw [batch_return_of_shutdown P objs st h]
      rfl
    · refine ⟨0, ?_⟩
      show ((safe_return_to_global P o st).2).ring = st.ring.drop 0
      rw [safe_return_of_shutdown P o st h]
      rfl
    · exact (shrink_of_shutdown P m st h).1
    · exact ⟨0, rfl⟩
  · intro o sameT
    exact (release_of_shutdown P L sameT o st h).2.2
  · intro objs pools
    exact List.Forall₂.imp (fun p q hp => hp.2.1) (dtorCore_evol P objs pools)

/-- C9, witness: a post-shutdown release destroys its slot and leaves the
ring alone. -/
theorem c9_witness :
    (({ shutdown := true, ring := [3] } : PoolState).shutdown = true) ∧
      (stepOp 2 2 (PoolOp.releaseOp (some 8) true)
          ({ shutdown := true, ring := [3] } : PoolState)).shutdown = true ∧
      (∃ k, (stepOp 2 2 (PoolOp.releaseOp (some 8) true)
          ({ shutdown := true, ring := [3] } : PoolState)).ring =
        ({ shutdown := true, ring := [3] } : PoolState).ring.drop k) ∧
      (∀ o sameT, (stepOp 2 2 (PoolOp.releaseOp (some o) sameT)
          ({ shutdown := true, ring := [3] } : PoolState)).deallocs =
        ({ shutdown := true, ring := [3] } : PoolState).deallocs ++ [o]) ∧
      (∀ objs pools,
        List.Forall₂ (fun p q => p.shutdown = true → q = p) pools
          (threadCacheDtorCore 2 objs pools).1) :=
  ⟨rfl, c9_shutdown_monotone 2 2 (PoolOp.releaseOp (some 8) true)
    { shutdown := true, ring := [3] } rfl⟩

/-- C10: `flush_local_cache` never consults the cache validity flag: for
every pool state — the flag may be `true` or `false` — it empties the cache
array, leaves the flag itself untouched, and every previously cached slot
ends up either in the global ring or destroyed-and-deallocated through the
adapter; by contrast `acquire` refuses to pop from an invalidated cache and
`release` refuses to push into one (the cache contents are untouched by
both). -/
theorem c10_flush_ignores_valid (P L : Nat) (allocOk sameT : Bool) (o : Nat)
    (st : PoolState) :
    (flush_local_cache P st).cache.data = [] ∧
      (flush_local_cache P st).cache.valid = st.cache.valid ∧
      (∀ x ∈ st.cache.data,
        x ∈ (flush_local_cache P st).ring ∨ x ∈ (flush_local_cache P st).deallocs) ∧
      (st.cache.valid = false → (acquire allocOk st).2.cache = st.cache) ∧
      (st.cache.valid = false →
        (release P L sameT (some o) st).cache = st.cache) := by
  refine ⟨flush_cache_data P st, flush_cache_valid P st, ?_,
    fun hv => acquire_cache_of_invalid allocOk st hv,
    fun hv => release_cache_of_invalid P L sameT o st hv⟩
  intro x hx
  unfold flush_local_cache
  rw [if_pos (List.length_pos.mpr (List.ne_nil_of_mem hx))]
  exact batch_return_mem P st.cache.data st x hx

/-- C10, witness: flushing an invalidated two-slot cache empties it and
accounts for the slot. -/
theorem c10_witness :
    (flush_local_cache 1 ({ cache := { valid := false, data := [3, 4] } } :
        PoolState)).cache.data = [] ∧
      (flush_local_cache 1 ({ cache := { valid := false, data := [3, 4] } } :
        PoolState)).cache.valid =
        ({ cache := { valid := false, data := [3, 4] } } : PoolState).cache.valid ∧
      (3 ∈ (flush_local_cache 1 ({ cache := { valid := false, data := [3, 4] } } :
          PoolState)).ring ∨
        3 ∈ (flush_local_cache 1 ({ cache := { valid := false, data := [3, 4] } } :
          PoolState)).deallocs) ∧
      (acquire true ({ cache := { valid := false, data := [3, 4] } } :
          PoolState)).2.cache =
        ({ cache := { valid := false, data := [3, 4] } } : PoolState).cache ∧
      (release 1 1 true (some 9) ({ cache := { valid := false, data := [3, 4] } } :
          PoolState)).cache =
        ({ cache := { valid := false, data := [3, 4] } } : PoolState).cache := by
  have h := c10_flush_ignores_valid 1 1 true true 9
    ({ cache := { valid := false, data := [3, 4] } } : PoolState)
  exact ⟨h.1, h.2.1, h.2.2.1 3 (by decide), h.2.2.2.1 rfl, h.2.2.2.2 rfl⟩

end LockfreePool
